import Mathlib

/-!
Verification development for the request-scoped structured-logging subsystem
(pino-nestjs fork): a shallow embedding of the Message Normalizer
(`Logger.call`), the Context-Resolving Facade (`PinoLogger`), the
field-augmentation operation (`PinoLogger.assign`), the fallback-logger
resolution, and the Named-Logger Registry (`InjectPinoLogger` /
`createProvidersForDecorated`), together with theorems settling the spec
claims about them.

JavaScript runtime values are modelled by the inductive `JsValue`; JS objects
are association lists in insertion order, with `Object.assign` / property
assignment modelled by `setField` / `assignFields` and property lookup by
`getField`.
-/

namespace PinoNestjs

/-- Model of the JavaScript values that flow through the logging subsystem:
undefined, null, booleans, numbers (modelled as integers), strings, arrays,
plain objects (association lists in insertion order) and Error instances
(with a message and an optional stack). -/
inductive JsValue where
  | vUndefined
  | vNull
  | vBool (b : Bool)
  | vNum (n : Int)
  | vStr (s : String)
  | vArr (elems : List JsValue)
  | vObj (fields : List (String × JsValue))
  | vErr (message : String) (stack : Option String)

/-- JS test `value === undefined`. -/
def isUndefined : JsValue → Bool
  | .vUndefined => true
  | _ => false

/-- JS test `typeof value === 'string'`. -/
def typeofIsString : JsValue → Bool
  | .vStr _ => true
  | _ => false

/-- JS test `typeof value === 'object'`: true for null, plain objects,
arrays and Error instances. -/
def typeofIsObject : JsValue → Bool
  | .vNull => true
  | .vObj _ => true
  | .vArr _ => true
  | .vErr _ _ => true
  | _ => false

/-- The radashi `isObject` helper used by `Logger.call`
(src/unnamed/part_000 line 163): true only for plain objects
(`!!value && value.constructor === Object`), hence false for null,
arrays and Error instances. -/
def isObject : JsValue → Bool
  | .vObj _ => true
  | _ => false

/-- The radashi `last` helper (src/unnamed/part_000 line 152): the last
element of the array, or undefined when the array is empty. -/
def jsLast (xs : List JsValue) : JsValue :=
  xs.getLastD .vUndefined

/-- Own enumerable properties of a value, as read by `Object.assign` and
object spread: a plain object contributes its fields, an array its elements
keyed by decimal index, and everything else (null, primitives, Error
instances, whose message and stack are non-enumerable) contributes none. -/
def ownEnumerableFields : JsValue → List (String × JsValue)
  | .vObj fs => fs
  | .vArr xs => xs.enum.map (fun p => (toString p.1, p.2))
  | _ => []

/-- JS property assignment `obj[k] = v` on an association-list object:
replace the value at an existing key in place, else append the key. -/
def setField : List (String × JsValue) → String → JsValue → List (String × JsValue)
  | [], k, v => [(k, v)]
  | (k', v') :: rest, k, v =>
      if k' = k then (k, v) :: rest else (k', v') :: setField rest k v

/-- JS property lookup `obj[k]` on an association-list object. -/
def getField : List (String × JsValue) → String → Option JsValue
  | [], _ => none
  | (k', v') :: rest, k => if k' = k then some v' else getField rest k

/-- JS `Object.assign(obj, src)` restricted to a known source field list:
assign each source field into the object left to right. -/
def assignFields (obj : List (String × JsValue)) (src : List (String × JsValue)) :
    List (String × JsValue) :=
  src.foldl (fun acc p => setField acc p.1 p.2) obj

mutual

/-- JS `String(value)` conversion for the values of the model
(used by the default branch of `Logger.call`, src/unnamed/part_000
line 211; only primitives can reach that branch, the remaining cases
follow the JS `toString` conventions). -/
def jsToString : JsValue → String
  | .vUndefined => "undefined"
  | .vNull => "null"
  | .vBool b => cond b "true" "false"
  | .vNum n => toString n
  | .vStr s => s
  | .vErr m _ => if m = "" then "Error" else "Error: " ++ m
  | .vObj _ => "[object Object]"
  | .vArr xs => jsArrJoin xs

/-- JS `Array.prototype.toString`: elements joined by commas, with null and
undefined elements rendered as the empty string. -/
def jsArrJoin : List JsValue → String
  | [] => ""
  | [.vUndefined] => ""
  | [.vNull] => ""
  | [v] => jsToString v
  | .vUndefined :: rest => "," ++ jsArrJoin rest
  | .vNull :: rest => "," ++ jsArrJoin rest
  | v :: rest => jsToString v ++ "," ++ jsArrJoin rest

end

/-- Counts the printf-style placeholders matched by the regex `/%[sdjo]/g`
over a character list: a percent sign immediately followed by one of
`s d j o`, scanning left to right without overlap
(src/unnamed/part_000 line 33). -/
def countPlaceholdersAux : List Char → Nat
  | [] => 0
  | [_] => 0
  | a :: b :: rest =>
      if a = '%' && (b = 's' || b = 'd' || b = 'j' || b = 'o') then
        countPlaceholdersAux rest + 1
      else
        countPlaceholdersAux (b :: rest)

/-- Placeholder count of a message string: `(message.match(/%[sdjo]/g) || []).length`. -/
def countPlaceholders (s : String) : Nat :=
  countPlaceholdersAux s.data

/-- The `isInterpolated` helper (src/unnamed/part_000 lines 27-41): a
non-string message never interpolates; for a string message the object at
position `objIndex` is needed for interpolation when `objIndex` is below the
placeholder count. The source's `objIndex !== undefined` test is always true
at its sole call site, which passes the number
`optionalParamsWithoutContext.length - 1` (possibly `-1`), so the final
`numPlaceholders > 0` line is unreachable there. -/
def isInterpolated (message : JsValue) (objIndex : Int) : Bool :=
  match message with
  | .vStr s => objIndex < (countPlaceholders s : Int)
  | _ => false

/-- Whitespace characters matched by the JS regex class `\s`
(ASCII part: space, tab, newline, carriage return, vertical tab, form feed). -/
def jsIsSpace (c : Char) : Bool :=
  c = ' ' || c = '\t' || c = '\n' || c = '\r' || c = '\x0b' || c = '\x0c'

/-- After a newline was consumed: skip `\s*` and require the literal `at `
(continuation of the regex `\n\s*at `). Since `a` is not a whitespace
character the greedy match never needs backtracking. -/
def afterNewline : List Char → Bool
  | 'a' :: 't' :: ' ' :: _ => true
  | c :: rest => if jsIsSpace c then afterNewline rest else false
  | [] => false

/-- Search for a match of `\n\s*at ` starting at any position. -/
def stackLikeAux : List Char → Bool
  | [] => false
  | '\n' :: rest => afterNewline rest || stackLikeAux rest
  | _ :: rest => stackLikeAux rest

/-- The stack-trace heuristic `/\n\s*at /.test(s)` used by
`Logger.isWrongExceptionsHandlerContract` (src/unnamed/part_000 line 240). -/
def stackLike (s : String) : Bool :=
  stackLikeAux s.data

/-- The six pino severity levels. -/
inductive Severity where
  | trace
  | debug
  | info
  | warn
  | error
  | fatal
deriving DecidableEq, Repr

/-- The guard `Logger.isWrongExceptionsHandlerContract`
(src/unnamed/part_000 lines 230-242): severity is error, the message is a
string, exactly one parameter remains after context extraction, and that
parameter is a string matching the stack-trace pattern. -/
def isWrongExceptionsHandlerContract (level : Severity) (message : JsValue)
    (params : List JsValue) : Bool :=
  decide (level = .error) &&
  typeofIsString message &&
  decide (params.length = 1) &&
  (match params with
   | [.vStr p] => stackLike p
   | _ => false)

/-- Step 1 of `Logger.call` (src/unnamed/part_000 lines 150-157): if the
last optional parameter is not undefined, record it in the merging object
under the context field name and drop it from the working parameter list;
otherwise the merging object stays empty and the working list stays empty
(note: the source never assigns the other parameters to the working list in
that case, so they are discarded). Returns the merging object and the
params-without-context list. -/
def extractContext (contextName : String) (optionalParams : List JsValue) :
    List (String × JsValue) × List JsValue :=
  let contextOrUndefined := jsLast optionalParams
  if isUndefined contextOrUndefined then
    ([], [])
  else
    (setField [] contextName contextOrUndefined, optionalParams.dropLast)

/-- Result of steps 1-2 of `Logger.call`: the accumulated structured fields,
the interpolation argument list, and the params-without-context list. -/
structure NormResult where
  mergingObject : List (String × JsValue)
  interpolationValues : List JsValue
  paramsNoCtx : List JsValue

/-- Steps 1-2 of `Logger.call` (src/unnamed/part_000 lines 146-172):
after context extraction, if the last remaining parameter is a plain object
(radashi `isObject`) and `isInterpolated message (length - 1)` is false,
merge that object into the structured fields and use the rest of the list as
interpolation arguments; otherwise the whole remaining list is used for
interpolation. -/
def normalizeParams (contextName : String) (message : JsValue)
    (optionalParams : List JsValue) : NormResult :=
  let e := extractContext contextName optionalParams
  let maybeMergingObject := jsLast e.2
  if isObject maybeMergingObject &&
      !(isInterpolated message ((e.2.length : Int) - 1)) then
    { mergingObject := assignFields e.1 (ownEnumerableFields maybeMergingObject),
      interpolationValues := e.2.dropLast,
      paramsNoCtx := e.2 }
  else
    { mergingObject := e.1,
      interpolationValues := e.2,
      paramsNoCtx := e.2 }

/-- Which guard clause of `Logger.call` produced the emitted record. -/
inductive CallBranch where
  | errorInstance
  | wrongHandlerContract
  | objectMessage
  | primitiveMessage
deriving DecidableEq, Repr

/-- The canonical record handed to the underlying logger handle: structured
fields, an optional message string (none when no message or an undefined
message slot is passed), and the interpolation arguments. -/
structure CanonicalRecord where
  fields : List (String × JsValue)
  msg : Option String
  args : List JsValue

/-- The first element of the params-without-context list when it is a
string (used by the wrong-exceptions-handler guard, which assigns
`err.stack = optionalParamsWithoutContext[0]`). -/
def headStackString : List JsValue → Option String
  | .vStr s :: _ => some s
  | _ => none

/-- The guard chain of `Logger.call` (src/unnamed/part_000 lines 174-212),
applied to the result of steps 1-2. Error instance: record it under the
literal field name `err` and emit its own message, or the literal `Error`
when that message is empty. Wrong-exceptions-handler contract: synthesize an
Error whose message is the original string and whose stack is the single
remaining parameter, record it under `err`, and emit with no message and no
interpolation arguments. Other objects: spread the message object over the
accumulated fields and emit with an undefined message slot. Anything else:
stringify the message. The returned branch tag records which guard fired. -/
def guardChain (level : Severity) (message : JsValue) (norm : NormResult) :
    CallBranch × CanonicalRecord :=
  match message with
  | .vErr em st =>
      (.errorInstance,
       { fields := setField norm.mergingObject "err" (.vErr em st),
         msg := some (if em = "" then "Error" else em),
         args := norm.interpolationValues })
  | m =>
      if isWrongExceptionsHandlerContract level m norm.paramsNoCtx then
        (.wrongHandlerContract,
         { fields := setField norm.mergingObject "err"
              (.vErr (jsToString m) (headStackString norm.paramsNoCtx)),
           msg := none,
           args := [] })
      else if typeofIsObject m then
        (.objectMessage,
         { fields := assignFields norm.mergingObject (ownEnumerableFields m),
           msg := none,
           args := norm.interpolationValues })
      else
        (.primitiveMessage,
         { fields := norm.mergingObject,
           msg := some (jsToString m),
           args := norm.interpolationValues })

/-- The full `Logger.call` normalization algorithm
(src/unnamed/part_000 lines 146-212): context extraction and the
merge-versus-interpolate decision (`normalizeParams`), followed by the
guard chain. -/
def loggerCall (contextName : String) (level : Severity) (message : JsValue)
    (optionalParams : List JsValue) : CallBranch × CanonicalRecord :=
  guardChain level message (normalizeParams contextName message optionalParams)

/-- The module configuration relevant to field naming
(src/libs/pino-nestjs/src/params.ts and the PinoLogger constructor):
an optional context-field rename and the optional
`pinoHttp.customAttributeKeys.err` error-key override. -/
structure Params where
  renameContext : Option String
  customErrKey : Option String

/-- The context field name `renameContext || 'context'`
(src/unnamed/part_000 line 75 and src/unnamed/part_003 line 139):
JS `||` falls back on the default for a missing or empty string. -/
def contextNameOf (p : Params) : String :=
  match p.renameContext with
  | some s => if s = "" then "context" else s
  | none => "context"

/-- The configured error field name
`pinoHttp.customAttributeKeys.err ?? 'err'`
(src/unnamed/part_003 lines 113-119): nullish coalescing keeps any present
string, including an empty one. -/
def errorKeyOf (p : Params) : String :=
  p.customErrKey.getD "err"

/-- A pino logger handle: an identity (so that derivation versus in-place
mutation is observable) and its permanently bound structured fields. -/
structure LoggerHandle where
  hid : Nat
  bindings : List (String × JsValue)

/-- pino `logger.child(fields)`: a new handle (fresh identity) whose
bindings extend the parent bindings with the extra fields. -/
def childOf (h : LoggerHandle) (freshId : Nat)
    (fields : List (String × JsValue)) : LoggerHandle :=
  { hid := freshId, bindings := assignFields h.bindings fields }

/-- pino `logger.setBindings(fields)`: the same handle (identity preserved)
with the fields merged into its bindings in place. -/
def setBindings (h : LoggerHandle) (fields : List (String × JsValue)) :
    LoggerHandle :=
  { hid := h.hid, bindings := assignFields h.bindings fields }

/-- The per-request `Store` (src/unnamed/part_000 lines 257-262): a primary
logger and an optional response-side logger. -/
structure Store where
  logger : LoggerHandle
  responseLogger : Option LoggerHandle

/-- The state visible to `PinoLogger.assign`: the Store associated with the
current dynamic extent by the context carrier (none outside any request
scope), plus a fresh-identity supply for newly derived child handles
(every live handle identity is below `nextId`). -/
structure AlsState where
  store : Option Store
  nextId : Nat

/-- The message of the exception thrown by `PinoLogger.assign` outside a
request scope (src/unnamed/part_003 lines 240-242). -/
def assignErrMsg : String :=
  "PinoLogger: unable to assign extra fields out of request scope"

/-- The field-augmentation operation `PinoLogger.assign`
(src/unnamed/part_003 lines 237-246): with no active Store it throws (the
error message is returned and the state is unchanged); with an active Store
it replaces the Store's primary logger by a derived child carrying the extra
fields and applies the same fields in place to the response logger when one
is present. -/
def assign (fields : List (String × JsValue)) (s : AlsState) :
    Option String × AlsState :=
  match s.store with
  | none => (some assignErrMsg, s)
  | some st =>
      (none,
       { store := some
           { logger := childOf st.logger s.nextId fields,
             responseLogger := st.responseLogger.map (fun rl => setBindings rl fields) },
         nextId := s.nextId + 1 })

/-- The shapes of the `pinoHttp` configuration distinguished by the
`PinoLogger` constructor (src/unnamed/part_003 lines 121-136): an options
array, an already-provided logger, options carrying a stream, or plain
options. -/
inductive PinoHttpConfig where
  | optsArray (opts : List (String × JsValue))
  | passedLogger (logger : LoggerHandle)
  | optsWithStream (opts : List (String × JsValue)) (streamId : Nat)
  | opts (o : List (String × JsValue))

/-- Model of the external `pino(opts)` factory: a root handle whose
bindings come from the options (identity 0, the process-lifetime root). -/
def pinoCreate (o : List (String × JsValue)) : LoggerHandle :=
  { hid := 0, bindings := o }

/-- The `outOfContext` initialization performed by the `PinoLogger`
constructor (src/unnamed/part_003 lines 121-136): only the first
instantiation assigns the process-wide fallback handle; every configuration
shape produces one. Returns the value of `outOfContext` after construction. -/
def pinoLoggerCtor (cfg : PinoHttpConfig) (outOfContext : Option LoggerHandle) :
    Option LoggerHandle :=
  match outOfContext with
  | some h => some h
  | none =>
      some (match cfg with
        | .optsArray o => pinoCreate o
        | .passedLogger l => l
        | .optsWithStream o _ => pinoCreate o
        | .opts o => pinoCreate o)

/-- The `PinoLogger.logger` getter (src/unnamed/part_003 lines 148-151):
`storage.getStore()?.logger || outOfContext!` — the request-scoped logger
when a Store is active, else the process-wide fallback; `none` models the
non-null assertion failing. -/
def resolveLogger (store : Option Store) (outOfContext : Option LoggerHandle) :
    Option LoggerHandle :=
  match store with
  | some st => some st.logger
  | none => outOfContext

/-- The label-injection step of `PinoLogger.call`
(src/unnamed/part_003 lines 263-287) together with `isFirstArgObject`
(lines 297-301): with a non-empty context label, an Error first argument is
replaced by an object merging the label (under the context field name) with
the error (under the error field name); any other object first argument is
shallow-merged over a label-only object; a non-object first argument has a
label-only object prepended. Returns the argument list handed to pino. -/
def pinoLoggerCall (contextName errorKey : String) (context : String)
    (args : List JsValue) : List JsValue :=
  if context = "" then
    args
  else if typeofIsObject (args.headD .vUndefined) then
    match args with
    | [] => args
    | firstArg :: rest =>
        match firstArg with
        | .vErr em st =>
            .vObj (assignFields (setField [] contextName (.vStr context))
                [(errorKey, .vErr em st)]) :: rest
        | _ =>
            .vObj (assignFields (setField [] contextName (.vStr context))
                (ownEnumerableFields firstArg)) :: rest
  else
    .vObj [(contextName, .vStr context)] :: args

/-- The provider token for a decorated logger label
(src/unnamed/part_002 lines 100-102). -/
def getLoggerToken (context : String) : String :=
  "PinoLogger:" ++ context

/-- Addition to the deduplicated label set `decoratedLoggers`
(a JS `Set<string>`, src/unnamed/part_002 line 24): insertion order is kept
and an already-present label is a no-op. -/
def setAdd (s : List String) (x : String) : List String :=
  if x ∈ s then s else s ++ [x]

/-- The registration step of `InjectPinoLogger(context)`
(src/unnamed/part_002 lines 44-47): add the label to `decoratedLoggers`. -/
def injectPinoLogger (context : String) (decoratedLoggers : List String) :
    List String :=
  setAdd decoratedLoggers context

/-- Registering a label N times in sequence. -/
def registerTimes : Nat → String → List String → List String
  | 0, _, s => s
  | n + 1, x, s => registerTimes n x (injectPinoLogger x s)

/-- A provider binding produced for a decorated label: its injection token
and the context that its factory passes to `setContext`
(src/unnamed/part_002 lines 62-71). -/
structure ProviderSpec where
  provide : String
  contextArg : String
deriving DecidableEq, Repr

/-- One provider binding for a label (src/unnamed/part_002 lines 62-71). -/
def createDecoratedLoggerProvider (context : String) : ProviderSpec :=
  { provide := getLoggerToken context, contextArg := context }

/-- The binding-building operation `createProvidersForDecorated`
(src/unnamed/part_002 lines 84-86): one provider per known label. -/
def createProvidersForDecorated (decoratedLoggers : List String) :
    List ProviderSpec :=
  decoratedLoggers.map createDecoratedLoggerProvider

/-! Helper lemmas about JS object field lookup and assignment. -/

/-- Looking up the key just assigned yields the assigned value. -/
theorem getField_setField_self (o : List (String × JsValue)) (k : String)
    (v : JsValue) : getField (setField o k v) k = some v := by
  induction o with
  | nil => simp [setField, getField]
  | cons p rest ih =>
      obtain ⟨k', v'⟩ := p
      by_cases hk : k' = k
      · simp [setField, getField, hk]
      · simp [setField, getField, hk, ih]

/-- Assigning one key leaves lookups of other keys unchanged. -/
theorem getField_setField_ne (o : List (String × JsValue)) (k k' : String)
    (v : JsValue) (h : k' ≠ k) :
    getField (setField o k v) k' = getField o k' := by
  have hk : ¬ k = k' := fun hh => h hh.symm
  induction o with
  | nil => simp [setField, getField, hk]
  | cons p rest ih =>
      obtain ⟨ka, va⟩ := p
      by_cases hka : ka = k
      · subst hka
        simp [setField, getField, hk]
      · simp [setField, getField, hka, ih]

/-- Object-assigning a source whose keys avoid `k` leaves lookups of `k`
unchanged. -/
theorem getField_assignFields_not_mem (base src : List (String × JsValue))
    (k : String) (h : k ∉ src.map Prod.fst) :
    getField (assignFields base src) k = getField base k := by
  induction src generalizing base with
  | nil => rfl
  | cons p tl ih =>
      obtain ⟨ka, va⟩ := p
      simp only [List.map_cons, List.mem_cons] at h
      push_neg at h
      have step : assignFields base ((ka, va) :: tl) =
          assignFields (setField base ka va) tl := rfl
      rw [step, ih _ h.2, getField_setField_ne _ _ _ _ h.1]

/-- Object-assigning a duplicate-free source makes every source key look up
to its source value. -/
theorem getField_assignFields_mem (base src : List (String × JsValue))
    (k : String) (v : JsValue) (hnd : (src.map Prod.fst).Nodup)
    (h : getField src k = some v) :
    getField (assignFields base src) k = some v := by
  induction src generalizing base with
  | nil => simp [getField] at h
  | cons p tl ih =>
      obtain ⟨ka, va⟩ := p
      simp only [List.map_cons, List.nodup_cons] at hnd
      have step : assignFields base ((ka, va) :: tl) =
          assignFields (setField base ka va) tl := rfl
      by_cases hk : ka = k
      · subst hk
        simp only [getField, if_pos rfl] at h
        cases h
        rw [step, getField_assignFields_not_mem _ _ _ hnd.1]
        exact getField_setField_self _ _ _
      · simp only [getField, if_neg hk] at h
        rw [step]
        exact ih _ hnd.2 h

/-- The guard chain at `Severity.error` with an empty normalization result
produces no interpolation arguments, whatever the message: needed to show
that a call whose optional parameters are all discarded passes nothing on. -/
theorem guardChain_empty_args (level : Severity) (msg : JsValue) :
    (guardChain level msg
        { mergingObject := [], interpolationValues := [], paramsNoCtx := [] }).2.args
      = [] := by
  cases msg <;>
    simp [guardChain, isWrongExceptionsHandlerContract, typeofIsString,
      typeofIsObject]

/-! Claim C1. The spec decides merge-versus-interpolate by the trailing
object's 0-based index counted from the END of the params-without-context
list; the code (src/unnamed/part_000 line 164) passes
`optionalParamsWithoutContext.length - 1`, the index counted from the
START. The spec also calls the trailing element an arbitrary non-null
object, while the code's radashi `isObject` accepts only plain objects, so
a trailing array is never merged. Both discrepancies are exhibited by
`trailing_object_end_index_counterexample`; the amended statement is
`trailing_plain_object_merge`. -/

/-- Counterexample to claim C1 as stated. First input: severity call with
message `%s` (one placeholder) and optional parameters
`["a", {k: 1}, "ctx"]`; after context extraction the trailing object sits
at end-index 0 with 0 < 1 placeholder, so the claim demands interpolation,
yet the code merges it into the structured fields (its start-index is 1,
and 1 < 1 fails). Second input: message `"hello"` (zero placeholders) with
a trailing array parameter; the claim demands that this non-null object be
merged, yet the code passes it through as an interpolation argument because
radashi `isObject` rejects arrays. -/
theorem trailing_object_end_index_counterexample :
    (0 < countPlaceholders "%s") ∧
    normalizeParams "context" (.vStr "%s")
        [.vStr "a", .vObj [("k", .vNum 1)], .vStr "ctx"] =
      { mergingObject := [("context", .vStr "ctx"), ("k", .vNum 1)],
        interpolationValues := [.vStr "a"],
        paramsNoCtx := [.vStr "a", .vObj [("k", .vNum 1)]] } ∧
    countPlaceholders "hello" = 0 ∧
    normalizeParams "context" (.vStr "hello") [.vArr [], .vStr "ctx"] =
      { mergingObject := [("context", .vStr "ctx")],
        interpolationValues := [.vArr []],
        paramsNoCtx := [.vArr []] } :=
  ⟨by decide, rfl, by decide, rfl⟩

/-- Claim C1, amended: for a severity call whose params-without-context
list ends in a plain object (non-null, not an array, not an exception),
that object is treated as an interpolation value (left in the argument
list, not merged) exactly when the message is a string and the object's
0-based index counted from the START of that list (its length minus one)
is below the placeholder count; when the message is not a string or that
index reaches the placeholder count, the object is merged into the
structured fields and dropped from the argument list. -/
theorem trailing_plain_object_merge (cn : String) (msg : JsValue)
    (ps : List JsValue) (fs : List (String × JsValue))
    (h : jsLast (extractContext cn ps).2 = .vObj fs) :
    ((∃ s, msg = .vStr s ∧
        (extractContext cn ps).2.length - 1 < countPlaceholders s) →
      normalizeParams cn msg ps =
        { mergingObject := (extractContext cn ps).1,
          interpolationValues := (extractContext cn ps).2,
          paramsNoCtx := (extractContext cn ps).2 }) ∧
    ((∀ s, msg = .vStr s →
        ¬ ((extractContext cn ps).2.length - 1 < countPlaceholders s)) →
      normalizeParams cn msg ps =
        { mergingObject := assignFields (extractContext cn ps).1 fs,
          interpolationValues := (extractContext cn ps).2.dropLast,
          paramsNoCtx := (extractContext cn ps).2 }) := by
  have hne : (extractContext cn ps).2 ≠ [] := by
    intro hnil
    rw [hnil] at h
    simp [jsLast] at h
  have hlen : 1 ≤ (extractContext cn ps).2.length :=
    List.length_pos.mpr hne
  constructor
  · rintro ⟨s, rfl, hlt⟩
    have hint : isInterpolated (.vStr s)
        (((extractContext cn ps).2.length : Int) - 1) = true := by
      simp only [isInterpolated, decide_eq_true_eq]
      omega
    simp [normalizeParams, h, isObject, hint]
  · intro hnot
    have hint : isInterpolated msg
        (((extractContext cn ps).2.length : Int) - 1) = false := by
      cases msg with
      | vStr s =>
          have := hnot s rfl
          simp only [isInterpolated, decide_eq_false_iff_not]
          omega
      | vUndefined => rfl
      | vNull => rfl
      | vBool b => rfl
      | vNum n => rfl
      | vArr xs => rfl
      | vObj ofs => rfl
      | vErr em st => rfl
    simp [normalizeParams, h, isObject, hint, ownEnumerableFields]

/-- Witness for the amended claim C1: message with two placeholders and a
single remaining object parameter at start-index 0, which is therefore
consumed for interpolation and not merged. -/
theorem trailing_plain_object_merge_witness :
    normalizeParams "context" (.vStr "%s did %s")
        [.vObj [("k", .vNum 1)], .vStr "ctx"] =
      { mergingObject := [("context", .vStr "ctx")],
        interpolationValues := [.vObj [("k", .vNum 1)]],
        paramsNoCtx := [.vObj [("k", .vNum 1)]] } :=
  (trailing_plain_object_merge "context" (.vStr "%s did %s")
      [.vObj [("k", .vNum 1)], .vStr "ctx"] [("k", .vNum 1)] rfl).1
    ⟨"%s did %s", rfl, by decide⟩

/-! Claim C2. The spec says the last optional parameter is extracted as
context unconditionally, whatever its type; the code
(src/unnamed/part_000 lines 152-157) skips the extraction when that last
element is undefined, so nothing is recorded in that case. -/

/-- Counterexample to claim C2 as stated: a severity call with the
non-empty optional parameter list `[{a: 1}, undefined]`. Its last element
is undefined, so the code records nothing under the context field name
(the emitted structured fields are empty), contradicting the claim that
the last element, whatever its type, is recorded under the context field
name. -/
theorem context_undefined_counterexample :
    jsLast [JsValue.vObj [("a", .vNum 1)], .vUndefined] = .vUndefined ∧
    extractContext "context" [.vObj [("a", .vNum 1)], .vUndefined] =
      ([], []) ∧
    (loggerCall "context" .info (.vStr "hello")
        [.vObj [("a", .vNum 1)], .vUndefined]).2.fields = [] :=
  ⟨rfl, rfl, rfl⟩

/-- Claim C2, amended: for every severity call whose optionalParams list is
non-empty and whose last element is not undefined, that last element —
whatever its type otherwise — is removed from the working parameter list
and recorded in the structured fields under the configured context field
name. -/
theorem context_extraction_records_last (cn : String) (ps : List JsValue)
    (h : isUndefined (jsLast ps) = false) :
    extractContext cn ps = ([(cn, jsLast ps)], ps.dropLast) := by
  simp [extractContext, h, setField]

/-- Witness for the amended claim C2: the spec's own example, parameters
`[{requestId: 7}, "req-42"]`. -/
theorem context_extraction_records_last_witness :
    extractContext "context" [.vObj [("requestId", .vNum 7)], .vStr "req-42"] =
      ([("context", .vStr "req-42")], [.vObj [("requestId", .vNum 7)]]) :=
  context_extraction_records_last "context"
    [.vObj [("requestId", .vNum 7)], .vStr "req-42"] rfl

/-! Claim C10: when the last optional parameter is undefined, the context
guard is skipped and the working parameter list keeps its initial empty
value (src/unnamed/part_000 lines 151-157), so every other optional
parameter is silently discarded. -/

/-- Claim C10: for every severity call whose optionalParams list ends in
undefined, no context field is recorded and every other element is
discarded: the call emits exactly what the same call with no optional
parameters at all would emit, and in particular no interpolation arguments
are passed. -/
theorem undefined_context_discards_params (cn : String) (level : Severity)
    (msg : JsValue) (ps : List JsValue) (h : jsLast ps = .vUndefined) :
    loggerCall cn level msg ps = loggerCall cn level msg [] ∧
    (loggerCall cn level msg ps).2.args = [] := by
  have he : extractContext cn ps = ([], []) := by
    simp [extractContext, h, isUndefined]
  have hn : normalizeParams cn msg ps =
      { mergingObject := [], interpolationValues := [], paramsNoCtx := [] } := by
    simp [normalizeParams, he, jsLast, isObject]
  have hnil : normalizeParams cn msg [] =
      { mergingObject := [], interpolationValues := [], paramsNoCtx := [] } := by
    simp [normalizeParams, extractContext, jsLast, isUndefined, isObject]
  have h1 : loggerCall cn level msg ps = loggerCall cn level msg [] := by
    unfold loggerCall
    rw [hn, hnil]
  refine ⟨h1, ?_⟩
  unfold loggerCall
  rw [hn]
  exact guardChain_empty_args level msg

/-- Witness for claim C10: a call with a real object parameter followed by
an undefined context collapses to the bare call. -/
theorem undefined_context_discards_params_witness :
    loggerCall "context" .info (.vStr "hi")
        [.vObj [("a", .vNum 1)], .vUndefined] =
      loggerCall "context" .info (.vStr "hi") [] ∧
    (loggerCall "context" .info (.vStr "hi")
        [.vObj [("a", .vNum 1)], .vUndefined]).2.args = [] :=
  undefined_context_discards_params "context" .info (.vStr "hi")
    [.vObj [("a", .vNum 1)], .vUndefined] rfl

/-! Claim C3. The exception guard of `Logger.call`
(src/unnamed/part_000 lines 174-183) records the exception under the
literal property name `err`; the configurable error key read from
`pinoHttp.customAttributeKeys.err` by the `PinoLogger` constructor
(src/unnamed/part_003 lines 113-119) is not consulted by the Message
Normalizer, so when that key is configured to anything other than `err`
the claim's "configured error-field name" part fails. -/

/-- Counterexample to claim C3 as stated: under a configuration whose
error-field name is `error` (via `customAttributeKeys.err`), an exception
passed as the sole argument of a severity call is still recorded under the
literal name `err`; nothing is recorded under the configured name. -/
theorem error_key_rename_counterexample :
    errorKeyOf { renameContext := none, customErrKey := some "error" } =
      "error" ∧
    (loggerCall
        (contextNameOf { renameContext := none, customErrKey := some "error" })
        .error (.vErr "boom" none) []).2.fields =
      [("err", .vErr "boom" none)] ∧
    getField
      (loggerCall
        (contextNameOf { renameContext := none, customErrKey := some "error" })
        .error (.vErr "boom" none) []).2.fields "error" = none :=
  ⟨rfl, rfl, rfl⟩

/-- Claim C3, amended: for every severity call whose message is an
exception, the exception is merged into the structured fields under the
literal field name `err` (the Message Normalizer does not honour the
configured error-field name) and the emitted message text equals the
exception's own message, or the literal `Error` when that message is empty;
an exception passed as the sole argument yields a record whose `err` field
is exactly that exception and zero residual interpolation args. -/
theorem error_instance_branch (cn : String) (level : Severity) (em : String)
    (st : Option String) (ps : List JsValue) :
    (loggerCall cn level (.vErr em st) ps).1 = .errorInstance ∧
    getField (loggerCall cn level (.vErr em st) ps).2.fields "err" =
      some (.vErr em st) ∧
    (loggerCall cn level (.vErr em st) ps).2.msg =
      some (if em = "" then "Error" else em) ∧
    (ps = [] → loggerCall cn level (.vErr em st) ps =
      (.errorInstance,
       { fields := [("err", .vErr em st)],
         msg := some (if em = "" then "Error" else em),
         args := [] })) := by
  refine ⟨rfl, ?_, rfl, ?_⟩
  · exact getField_setField_self _ _ _
  · rintro rfl
    rfl

/-- Witness for the amended claim C3: the sole-argument exception call. -/
theorem error_instance_branch_witness :
    loggerCall "context" .error (.vErr "boom" none) [] =
      (.errorInstance,
       { fields := [("err", .vErr "boom" none)],
         msg := some "boom", args := [] }) :=
  (error_instance_branch "context" .error "boom" none []).2.2.2 rfl

/-! Claim C4: the wrong-exceptions-handler compatibility branch. -/

/-- Characterization of the `isWrongExceptionsHandlerContract` guard as a
proposition. -/
theorem wrongContract_iff (level : Severity) (message : JsValue)
    (params : List JsValue) :
    isWrongExceptionsHandlerContract level message params = true ↔
      (level = .error ∧ ∃ s p, message = .vStr s ∧ params = [.vStr p] ∧
        stackLike p = true) := by
  constructor
  · intro h
    unfold isWrongExceptionsHandlerContract at h
    simp only [Bool.and_eq_true, decide_eq_true_eq] at h
    obtain ⟨⟨⟨hl, hs⟩, _⟩, hm⟩ := h
    refine ⟨hl, ?_⟩
    cases message with
    | vStr s =>
        match params, hm with
        | [.vStr p], hm => exact ⟨s, p, rfl, rfl, hm⟩
    | vUndefined => simp [typeofIsString] at hs
    | vNull => simp [typeofIsString] at hs
    | vBool b => simp [typeofIsString] at hs
    | vNum n => simp [typeofIsString] at hs
    | vArr xs => simp [typeofIsString] at hs
    | vObj fs => simp [typeofIsString] at hs
    | vErr em st => simp [typeofIsString] at hs
  · rintro ⟨rfl, s, p, rfl, rfl, hp⟩
    simp [isWrongExceptionsHandlerContract, typeofIsString, hp]

/-- Claim C4: a severity call takes the wrong-exceptions-handler branch
exactly when the severity is error, the message is a string, and exactly
one parameter remains after context extraction which is itself a string
matching the stack-trace pattern; in that case it emits a record whose
fields merge a synthesized exception (message: the original string, stack:
the passed string) under the error field on top of the extracted context
fields, with no message text and no interpolation arguments passed
through. -/
theorem wrong_handler_contract_branch (cn : String) (level : Severity)
    (msg : JsValue) (ps : List JsValue) :
    ((loggerCall cn level msg ps).1 = .wrongHandlerContract ↔
      (level = .error ∧ ∃ s p, msg = .vStr s ∧
        (extractContext cn ps).2 = [.vStr p] ∧ stackLike p = true)) ∧
    (∀ s p, level = .error → msg = .vStr s →
      (extractContext cn ps).2 = [.vStr p] → stackLike p = true →
      (loggerCall cn level msg ps).2 =
        { fields := setField (extractContext cn ps).1 "err"
            (.vErr s (some p)),
          msg := none,
          args := [] }) := by
  have hpn : (normalizeParams cn msg ps).paramsNoCtx =
      (extractContext cn ps).2 := by
    unfold normalizeParams
    by_cases hc : (isObject (jsLast (extractContext cn ps).2) &&
        !isInterpolated msg (((extractContext cn ps).2.length : Int) - 1)) = true
    · simp [hc]
    · simp [hc]
  constructor
  · rw [← wrongContract_iff level msg (extractContext cn ps).2, ← hpn]
    unfold loggerCall guardChain
    cases msg with
    | vErr em st =>
        simp [isWrongExceptionsHandlerContract, typeofIsString]
    | vUndefined =>
        by_cases hw : isWrongExceptionsHandlerContract level .vUndefined
          (normalizeParams cn .vUndefined ps).paramsNoCtx = true <;>
          simp [hw, typeofIsObject]
    | vNull =>
        by_cases hw : isWrongExceptionsHandlerContract level .vNull
          (normalizeParams cn .vNull ps).paramsNoCtx = true <;>
          simp [hw, typeofIsObject]
    | vBool b =>
        by_cases hw : isWrongExceptionsHandlerContract level (.vBool b)
          (normalizeParams cn (.vBool b) ps).paramsNoCtx = true <;>
          simp [hw, typeofIsObject]
    | vNum n =>
        by_cases hw : isWrongExceptionsHandlerContract level (.vNum n)
          (normalizeParams cn (.vNum n) ps).paramsNoCtx = true <;>
          simp [hw, typeofIsObject]
    | vStr s =>
        by_cases hw : isWrongExceptionsHandlerContract level (.vStr s)
          (normalizeParams cn (.vStr s) ps).paramsNoCtx = true <;>
          simp [hw, typeofIsObject]
    | vArr xs =>
        by_cases hw : isWrongExceptionsHandlerContract level (.vArr xs)
          (normalizeParams cn (.vArr xs) ps).paramsNoCtx = true <;>
          simp [hw, typeofIsObject]
    | vObj fs =>
        by_cases hw : isWrongExceptionsHandlerContract level (.vObj fs)
          (normalizeParams cn (.vObj fs) ps).paramsNoCtx = true <;>
          simp [hw, typeofIsObject]
  · rintro s p rfl rfl hps hp
    have hw : isWrongExceptionsHandlerContract .error (.vStr s)
        (normalizeParams cn (.vStr s) ps).paramsNoCtx = true := by
      rw [hpn, hps]
      simp [isWrongExceptionsHandlerContract, typeofIsString, hp]
    have hmo : (normalizeParams cn (.vStr s) ps).mergingObject =
        (extractContext cn ps).1 := by
      unfold normalizeParams
      simp [hps, jsLast, isObject]
    unfold loggerCall
    simp only [guardChain]
    rw [if_pos hw]
    simp only [hmo, hpn, hps]
    rfl

/-- Witness for claim C4: the framework exception-handler calling
convention `error(message, stackString, contextLabel)` synthesizes an
exception carrying the stack and suppresses the separate message. -/
theorem wrong_handler_contract_branch_witness :
    (loggerCall "context" .error (.vStr "boom")
        [.vStr "Error: boom\n    at foo (file.js:1:1)",
         .vStr "ExceptionsHandler"]).2 =
      { fields := [("context", .vStr "ExceptionsHandler"),
          ("err",
           .vErr "boom" (some "Error: boom\n    at foo (file.js:1:1)"))],
        msg := none,
        args := [] } :=
  (wrong_handler_contract_branch "context" .error (.vStr "boom")
      [.vStr "Error: boom\n    at foo (file.js:1:1)",
       .vStr "ExceptionsHandler"]).2
    "boom" "Error: boom\n    at foo (file.js:1:1)" rfl rfl rfl (by decide)

/-! Claim C6: the field-augmentation operation `PinoLogger.assign`. -/

/-- Claim C6: with no request-scoped Store active, `assign` throws
synchronously (the scope-violation message) and leaves all state unchanged;
with an active Store it succeeds, replacing the Store's primary logger by a
derived child (a fresh identity, distinct from the old one) permanently
carrying the extra fields and, when a response-side logger is present,
applying the same fields to it in place without replacing its identity. -/
theorem assign_scope_and_fields (fields : List (String × JsValue))
    (s : AlsState) :
    (s.store = none → assign fields s = (some assignErrMsg, s)) ∧
    (∀ st, s.store = some st → st.logger.hid < s.nextId →
      (assign fields s).1 = none ∧
      (assign fields s).2.store =
        some { logger :=
                 { hid := s.nextId,
                   bindings := assignFields st.logger.bindings fields },
               responseLogger := st.responseLogger.map
                 (fun rl =>
                   { hid := rl.hid,
                     bindings := assignFields rl.bindings fields }) } ∧
      (∀ st', (assign fields s).2.store = some st' →
        st'.logger.hid ≠ st.logger.hid)) := by
  obtain ⟨store, nextId⟩ := s
  constructor
  · rintro rfl
    rfl
  · rintro st rfl hlt
    refine ⟨rfl, rfl, ?_⟩
    rintro st' h'
    injection h' with hh
    rw [← hh]
    show nextId ≠ st.logger.hid
    have hlt' : st.logger.hid < nextId := hlt
    omega

/-- Witness for claim C6: a Store with a primary logger of identity 0 and a
response logger of identity 1; assigning a field derives a fresh primary
handle (identity 2) and updates the response handle in place. -/
theorem assign_scope_and_fields_witness :
    (assign [("user", .vStr "u1")]
        { store := some
            { logger := { hid := 0, bindings := [] },
              responseLogger := some { hid := 1, bindings := [] } },
          nextId := 2 }).2.store =
      some { logger := { hid := 2, bindings := [("user", .vStr "u1")] },
             responseLogger :=
               some { hid := 1, bindings := [("user", .vStr "u1")] } } :=
  ((assign_scope_and_fields [("user", .vStr "u1")]
      { store := some
          { logger := { hid := 0, bindings := [] },
            responseLogger := some { hid := 1, bindings := [] } },
        nextId := 2 }).2
    { logger := { hid := 0, bindings := [] },
      responseLogger := some { hid := 1, bindings := [] } }
    rfl (by decide)).2.1

/-! Claim C7: label injection by the Context-Resolving Facade. -/

/-- Claim C7: with a non-empty label (and distinct context and error field
names), a severity call whose first argument is an exception emits a
leading object carrying both the label under the context field name and
the exception under the error field name; an object first argument is
shallow-merged over the label at higher precedence, so a caller-supplied
key equal to the context field name overrides the label; any other call
has a label-only object prepended before the remaining arguments. -/
theorem pino_call_label_injection (cn ek ctx : String) (hctx : ctx ≠ "")
    (hk : cn ≠ ek) :
    (∀ (em : String) (st : Option String) (rest : List JsValue),
      pinoLoggerCall cn ek ctx (.vErr em st :: rest) =
        .vObj [(cn, .vStr ctx), (ek, .vErr em st)] :: rest) ∧
    (∀ (fs : List (String × JsValue)) (rest : List JsValue),
      pinoLoggerCall cn ek ctx (.vObj fs :: rest) =
        .vObj (assignFields [(cn, .vStr ctx)] fs) :: rest ∧
      ((fs.map Prod.fst).Nodup → ∀ v, getField fs cn = some v →
        getField (assignFields [(cn, .vStr ctx)] fs) cn = some v)) ∧
    (∀ args : List JsValue, typeofIsObject (args.headD .vUndefined) = false →
      pinoLoggerCall cn ek ctx args = .vObj [(cn, .vStr ctx)] :: args) := by
  refine ⟨?_, ?_, ?_⟩
  · intro em st rest
    simp [pinoLoggerCall, hctx, typeofIsObject, assignFields, setField, hk]
  · intro fs rest
    constructor
    · simp [pinoLoggerCall, hctx, typeofIsObject, ownEnumerableFields,
        setField]
    · intro hnd v hv
      exact getField_assignFields_mem _ _ _ _ hnd hv
  · intro args hargs
    cases args with
    | nil => simp [pinoLoggerCall, hctx, typeofIsObject]
    | cons a rest =>
        simp only [List.headD] at hargs
        simp [pinoLoggerCall, hctx, hargs]

/-- Witness for claim C7: the label `UserService` with the default field
names, applied to an exception first argument. -/
theorem pino_call_label_injection_witness :
    pinoLoggerCall "context" "err" "UserService" [.vErr "boom" none] =
      [.vObj [("context", .vStr "UserService"), ("err", .vErr "boom" none)]] :=
  (pino_call_label_injection "context" "err" "UserService" (by decide)
      (by decide)).1 "boom" none []

/-! Claim C8: fallback resolution never fails once a `PinoLogger` has been
constructed. -/

/-- Claim C8: after any run of the `PinoLogger` constructor the
process-wide fallback handle is populated (whatever the configuration
shape and whatever was there before), and resolving the logger with no
request-scoped Store active returns exactly that fallback handle — the
non-null dereference of the fallback can never fail. -/
theorem fallback_resolution_total (cfg : PinoHttpConfig)
    (prior : Option LoggerHandle) :
    (pinoLoggerCtor cfg prior).isSome = true ∧
    resolveLogger none (pinoLoggerCtor cfg prior) = pinoLoggerCtor cfg prior := by
  constructor
  · cases prior with
    | some h => rfl
    | none => rfl
  · rfl

/-! Claim C9: idempotent label registration. -/

/-- Left-cancellation for string concatenation. -/
theorem str_append_cancel {p a b : String} (h : p ++ a = p ++ b) : a = b := by
  have hd : (p ++ a).data = (p ++ b).data := congrArg String.data h
  have h2 : p.data ++ a.data = p.data ++ b.data := by simpa using hd
  have h3 := List.append_cancel_left h2
  cases a
  cases b
  exact congrArg String.mk h3

/-- Provider tokens are distinct for distinct labels. -/
theorem getLoggerToken_inj {a b : String}
    (h : getLoggerToken a = getLoggerToken b) : a = b :=
  str_append_cancel h

/-- Set insertion keeps the label list duplicate-free. -/
theorem setAdd_nodup {s : List String} {x : String} (h : s.Nodup) :
    (setAdd s x).Nodup := by
  unfold setAdd
  by_cases hx : x ∈ s
  · rw [if_pos hx]
    exact h
  · rw [if_neg hx]
    refine List.nodup_append.mpr ⟨h, List.nodup_singleton x, ?_⟩
    intro a ha hax
    rw [List.mem_singleton] at hax
    subst hax
    exact hx ha

/-- The inserted label is a member afterwards. -/
theorem mem_setAdd_self (s : List String) (x : String) : x ∈ setAdd s x := by
  unfold setAdd
  by_cases hx : x ∈ s
  · rw [if_pos hx]
    exact hx
  · simp [hx]

/-- After inserting into a duplicate-free set the label occurs exactly
once. -/
theorem count_setAdd_self {s : List String} {x : String} (h : s.Nodup) :
    (setAdd s x).count x = 1 := by
  unfold setAdd
  by_cases hx : x ∈ s
  · rw [if_pos hx]
    have h1 : 0 < s.count x := List.count_pos_iff.mpr hx
    have h2 : s.count x ≤ 1 := List.nodup_iff_count_le_one.mp h x
    omega
  · rw [if_neg hx, List.count_append]
    have h0 : s.count x = 0 := List.count_eq_zero.mpr hx
    simp [h0]

/-- Registering a label that is already present any number of times is a
no-op. -/
theorem registerTimes_of_mem {x : String} {s : List String} (h : x ∈ s) :
    ∀ n, registerTimes n x s = s := by
  intro n
  induction n with
  | zero => rfl
  | succ m ih =>
      show registerTimes m x (injectPinoLogger x s) = s
      rw [injectPinoLogger, setAdd, if_pos h]
      exact ih

/-- The provider list built from a label set contains one binding per
occurrence of the label. -/
theorem providers_filter_count (L : String) (t : List String) :
    ((createProvidersForDecorated t).filter
      (fun p => p.provide == getLoggerToken L)).length = t.count L := by
  induction t with
  | nil => rfl
  | cons a tl ih =>
      simp only [createProvidersForDecorated] at ih ⊢
      by_cases ha : a = L
      · subst ha
        simp [createDecoratedLoggerProvider, List.count_cons, ih]
      · have hne : ((createDecoratedLoggerProvider a).provide ==
            getLoggerToken L) = false := by
          rw [show (createDecoratedLoggerProvider a).provide =
            getLoggerToken a from rfl]
          rw [beq_eq_false_iff_ne]
          exact fun hh => ha (getLoggerToken_inj hh)
        have hne' : (a == L) = false := by
          rw [beq_eq_false_iff_ne]
          exact ha
        simp [List.count_cons, hne, hne', ih]

/-- Claim C9: registering a label L via the Named-Logger Registry N times,
with N at least one, starting from any duplicate-free label set, leaves the
set containing L exactly once, and the binding-building operation produces
exactly one provider binding whose token is L's. -/
theorem register_label_idempotent (L : String) (s : List String) (n : Nat)
    (hnd : s.Nodup) (hn : 1 ≤ n) :
    (registerTimes n L s).count L = 1 ∧
    ((createProvidersForDecorated (registerTimes n L s)).filter
      (fun p => p.provide == getLoggerToken L)).length = 1 := by
  have hred : registerTimes n L s = setAdd s L := by
    cases n with
    | zero => omega
    | succ m =>
        show registerTimes m L (injectPinoLogger L s) = setAdd s L
        exact registerTimes_of_mem (mem_setAdd_self s L) m
  rw [hred]
  have hc := count_setAdd_self (s := s) (x := L) hnd
  exact ⟨hc, by rw [providers_filter_count, hc]⟩

/-- Witness for claim C9: registering the label `UserService` three times
from an empty registry leaves it registered once, with one provider
binding. -/
theorem register_label_idempotent_witness :
    (registerTimes 3 "UserService" []).count "UserService" = 1 ∧
    ((createProvidersForDecorated (registerTimes 3 "UserService" [])).filter
      (fun p => p.provide == getLoggerToken "UserService")).length = 1 :=
  register_label_idempotent "UserService" [] 3 List.nodup_nil (by decide)

end PinoNestjs
